import Mathlib

/-!
Shallow embedding of the run-orchestration core of the CMAS repository:
`src/controller/workflow_controller.py` (class `WorkflowController`) and
`src/controller/state_store.py` (class `StateStore`).

Python dictionaries that carry results are modelled as structures with
optional fields; the on-disk JSON ledger is modelled as an association
list keyed by (event id, module name); wall-clock time is a `Nat`
parameter standing for the value of `datetime.now().isoformat()` during
one `run_event` call; Python exceptions are modelled with `Except String`
carrying `str(e)`.
-/

namespace CMAS

/-- A module result dictionary, as constructed by `WorkflowController` and
mutated by `StateStore.save_module_result`.  The fields are the keys the
core itself reads or writes; handler-specific output references are kept
opaque in `extra`. -/
structure StepResult where
  status : String
  message : Option String := none
  error : Option String := none
  timestamp : Option Nat := none
  extra : List (String × String) := []
  saved_at : Option Nat := none
deriving Repr, DecidableEq

/-- The `workflow_state.json` record written by
`StateStore.save_workflow_state`. -/
structure WorkflowState where
  event_id : String
  completed_at : Nat
  module_results : List (String × StepResult)
  overall_status : String
deriving Repr, DecidableEq

/-- An event configuration, as loaded by the event repository: the
`modules` mapping from module name to enabled flag (order significant),
plus domain metadata the core does not interpret. -/
structure EventConfig where
  modules : List (String × Bool)
  meta : List (String × String) := []
deriving Repr, DecidableEq

/-- The persistent state behind a `StateStore`: which event directories
exist, the per-module result files under `logs/`, and the
`workflow_state.json` files, newest write first. -/
structure StateStore where
  eventDirExists : String → Bool
  results : List ((String × String) × StepResult)
  states : List (String × WorkflowState)

/-- First-match association-list lookup, standing for reading the newest
write of a keyed JSON file. -/
def alookup {α β : Type} [DecidableEq α] : List (α × β) → α → Option β
  | [], _ => none
  | (k, v) :: t, a => if k = a then some v else alookup t a

/-- Embeds `StateStore.save_module_result`: raises `ValueError` when the event
directory is absent; otherwise sets `result["saved_at"]` to the current
time and persists the mutated record.  The mutated record is returned
alongside the new store because the Python caller holds an alias to it. -/
def save_module_result (st : StateStore) (event_id module_name : String)
    (result : StepResult) (now : Nat) : Except String (StepResult × StateStore) :=
  if st.eventDirExists event_id then
    let result2 := { result with saved_at := some now }
    .ok (result2, { st with results := ((event_id, module_name), result2) :: st.results })
  else
    .error ("Event directory not found: " ++ event_id)

/-- Embeds `StateStore.get_module_result`: the stored result or `None`. -/
def get_module_result (st : StateStore) (event_id module_name : String) :
    Option StepResult :=
  alookup st.results (event_id, module_name)

/-- Embeds `StateStore._compute_overall_status`. -/
def compute_overall_status (results : List (String × StepResult)) : String :=
  if results.isEmpty then "failed"
  else if (results.map fun r => r.2.status).all (fun s => s == "success") then
    "success"
  else if (results.map fun r => r.2.status).any (fun s => s == "success") then
    "partial"
  else "failed"

/-- Embeds `StateStore.save_workflow_state`: raises `ValueError` when the event
directory is absent; otherwise writes the aggregate record. -/
def save_workflow_state (st : StateStore) (event_id : String)
    (results : List (String × StepResult)) (now : Nat) : Except String StateStore :=
  if st.eventDirExists event_id then
    .ok { st with states :=
      (event_id,
        { event_id := event_id
          completed_at := now
          module_results := results
          overall_status := compute_overall_status results }) :: st.states }
  else
    .error ("Event directory not found: " ++ event_id)

/-- Embeds `StateStore.get_workflow_state`. -/
def get_workflow_state (st : StateStore) (event_id : String) : Option WorkflowState :=
  alookup st.states event_id

/-- The module names recognized by the dispatch chain in
`WorkflowController._run_module` (lines 99-110). -/
def knownModule (name : String) : Bool :=
  if name = "thumbnail_ai" then true
  else if name = "thumbnail_compose" then true
  else if name = "subtitles" then true
  else if name = "publish_youtube" then true
  else if name = "publish_website" then true
  else if name = "archive" then true
  else false

/-- The behaviour of the six concrete module runners
(`_run_thumbnail_ai`, ..., `_run_archive`): each either returns a result
dictionary or raises a fault with message `str(e)`.  They are abstracted
as one function because the core treats them uniformly through the
dispatch chain. -/
structure Env where
  handle : String → String → EventConfig → Nat → Except String StepResult

/-- The body of the `try` block in `WorkflowController._run_module`
(lines 98-116): route a known name to its runner, otherwise build the
`skipped` record for an unknown module.  The `Bool` records whether a
concrete module runner was invoked. -/
def dispatch (env : Env) (event_id : String) (event_config : EventConfig)
    (now : Nat) (module_name : String) : Except String StepResult × Bool :=
  if knownModule module_name then
    (env.handle module_name event_id event_config now, true)
  else
    (.ok { status := "skipped"
           message := some ("Unknown module: " ++ module_name)
           timestamp := some now }, false)

/-- The execute path of `WorkflowController._run_module`: dispatch the
module, converting a raised fault into a `failed` record carrying
`str(e)` (lines 117-123). -/
def run_module_go (env : Env) (event_id module_name : String)
    (event_config : EventConfig) (now : Nat) : StepResult × Bool :=
  match dispatch env event_id event_config now module_name with
  | (.ok r, invoked) => (r, invoked)
  | (.error e, invoked) =>
    ({ status := "failed", error := some e, timestamp := some now }, invoked)

/-- Embeds `WorkflowController._run_module`: skip when a prior `success` result
exists and `force` is false; otherwise execute (lines 88-123). -/
def run_module (env : Env) (st : StateStore) (event_id module_name : String)
    (event_config : EventConfig) (force : Bool) (now : Nat) : StepResult × Bool :=
  if force then run_module_go env event_id module_name event_config now
  else
    match get_module_result st event_id module_name with
    | some existing_result =>
      if existing_result.status = "success" then (existing_result, false)
      else run_module_go env event_id module_name event_config now
    | none => run_module_go env event_id module_name event_config now

/-- Embeds `WorkflowController._get_enabled_modules`. -/
def get_enabled_modules (event_config : EventConfig) : List String :=
  (event_config.modules.filter fun p => p.2).map Prod.fst

/-- The observable outcome of one `run_event` call: the returned value
(or the propagated exception message), the state-store contents
afterwards, plus two ghost traces — the module names whose concrete
runner was invoked, and the module names processed by the loop, in
order. -/
structure RunOut where
  value : Except String (List (String × StepResult))
  store : StateStore
  invoked : List String
  processed : List String

/-- Intermediate outcome of the loop over enabled modules. -/
structure LoopOut where
  results : List (String × StepResult)
  store : StateStore
  invoked : List String
  processed : List String

/-- The `for module_name in enabled_modules` loop of
`WorkflowController.run_event` (lines 55-63): run the module, record its
result, save it; any exception (in this model, a ledger write failure)
is caught and replaces the recorded result with
`{"status": "failed", "error": str(e)}`, and the loop continues. -/
def runLoop (env : Env) (event_id : String) (event_config : EventConfig)
    (force : Bool) (now : Nat) : List String → StateStore → LoopOut
  | [], st => ⟨[], st, [], []⟩
  | module_name :: rest, st =>
    let ri := run_module env st event_id module_name event_config force now
    match save_module_result st event_id module_name ri.1 now with
    | .ok (r2, st2) =>
      let out := runLoop env event_id event_config force now rest st2
      ⟨(module_name, r2) :: out.results, out.store,
       (if ri.2 then [module_name] else []) ++ out.invoked,
       module_name :: out.processed⟩
    | .error e =>
      let out := runLoop env event_id event_config force now rest st
      ⟨(module_name, { status := "failed", error := some e }) :: out.results,
       out.store,
       (if ri.2 then [module_name] else []) ++ out.invoked,
       module_name :: out.processed⟩

/-- Embeds `WorkflowController.run_event`.  The event repository
(`EventManager.load_event`, an external collaborator of the core) is the
parameter `repo`: modelled from the spec, it supplies the event's
configuration or absence.  A falsy configuration raises
`ValueError("Event not found: ...")`; otherwise the enabled modules are
run in order and the final workflow state is saved (its failure is not
caught and propagates). -/
def run_event (env : Env) (repo : String → Option EventConfig)
    (st : StateStore) (event_id : String) (force : Bool) (now : Nat) : RunOut :=
  match repo event_id with
  | none => ⟨.error ("Event not found: " ++ event_id), st, [], []⟩
  | some event_config =>
    let out := runLoop env event_id event_config force now
      (get_enabled_modules event_config) st
    match save_workflow_state out.store event_id out.results now with
    | .ok st2 => ⟨.ok out.results, st2, out.invoked, out.processed⟩
    | .error e => ⟨.error e, out.store, out.invoked, out.processed⟩

/-! ### Concrete fixtures used to instantiate the theorems -/

/-- Environment whose module runners all report success. -/
def demoEnv : Env :=
  ⟨fun _ _ _ t => .ok { status := "success", message := some "ok", timestamp := some t }⟩

/-- Environment whose module runners all raise a fault. -/
def demoFaultEnv : Env := ⟨fun name _ _ _ => .error ("boom: " ++ name)⟩

/-- A configuration with two enabled known modules, one enabled unknown
module and one disabled module. -/
def demoConfig : EventConfig :=
  { modules := [("thumbnail_ai", true), ("mystery", true),
                ("archive", true), ("subtitles", false)] }

/-- A repository holding `demoConfig` for every event id. -/
def demoRepo : String → Option EventConfig := fun _ => some demoConfig

/-- An empty store in which every event directory exists. -/
def demoStore : StateStore := ⟨fun _ => true, [], []⟩

/-- An empty store in which no event directory exists. -/
def demoStoreNoDir : StateStore := ⟨fun _ => false, [], []⟩

/-- A previously persisted `success` result. -/
def priorSuccess : StepResult :=
  { status := "success", message := some "AI thumbnail generated"
    timestamp := some 0, saved_at := some 0 }

/-- A store already holding `priorSuccess` for `("e", "thumbnail_ai")`. -/
def demoStorePrior : StateStore :=
  ⟨fun _ => true, [(("e", "thumbnail_ai"), priorSuccess)], []⟩

/-! ### Basic lemmas about the embedding -/

theorem alookup_cons_self {α β : Type} [DecidableEq α] (k : α) (v : β)
    (t : List (α × β)) : alookup ((k, v) :: t) k = some v := by
  simp [alookup]

theorem alookup_cons_ne {α β : Type} [DecidableEq α] {k a : α} (v : β)
    (t : List (α × β)) (h : k ≠ a) : alookup ((k, v) :: t) a = alookup t a := by
  simp [alookup, h]

theorem run_module_go_snd (env : Env) (event_id module_name : String)
    (event_config : EventConfig) (now : Nat) :
    (run_module_go env event_id module_name event_config now).2 =
      knownModule module_name := by
  unfold run_module_go dispatch
  cases hk : knownModule module_name
  · simp
  · simp only [if_pos rfl]
    cases env.handle module_name event_id event_config now <;> simp

theorem run_module_force (env : Env) (st : StateStore)
    (event_id module_name : String) (event_config : EventConfig) (now : Nat) :
    run_module env st event_id module_name event_config true now =
      run_module_go env event_id module_name event_config now := rfl

theorem run_module_skip (env : Env) (st : StateStore)
    (event_id module_name : String) (event_config : EventConfig) (now : Nat)
    {r : StepResult} (hr : get_module_result st event_id module_name = some r)
    (hs : r.status = "success") :
    run_module env st event_id module_name event_config false now = (r, false) := by
  simp [run_module, hr, hs]

theorem run_module_no_prior (env : Env) (st : StateStore)
    (event_id module_name : String) (event_config : EventConfig)
    (force : Bool) (now : Nat)
    (hr : get_module_result st event_id module_name = none) :
    run_module env st event_id module_name event_config force now =
      run_module_go env event_id module_name event_config now := by
  cases force <;> simp [run_module, hr]

theorem run_module_congr (env : Env) {st st' : StateStore}
    (event_id module_name : String) (event_config : EventConfig)
    (force : Bool) (now : Nat)
    (h : get_module_result st' event_id module_name =
         get_module_result st event_id module_name) :
    run_module env st' event_id module_name event_config force now =
      run_module env st event_id module_name event_config force now := by
  simp [run_module, h]

theorem runLoop_processed (env : Env) (event_id : String)
    (event_config : EventConfig) (force : Bool) (now : Nat)
    (names : List String) (st : StateStore) :
    (runLoop env event_id event_config force now names st).processed = names := by
  induction names generalizing st with
  | nil => rfl
  | cons n rest ih =>
    cases h : st.eventDirExists event_id <;>
      simp [runLoop, save_module_result, h, ih]

theorem runLoop_results_fst (env : Env) (event_id : String)
    (event_config : EventConfig) (force : Bool) (now : Nat)
    (names : List String) (st : StateStore) :
    (runLoop env event_id event_config force now names st).results.map Prod.fst
      = names := by
  induction names generalizing st with
  | nil => rfl
  | cons n rest ih =>
    cases h : st.eventDirExists event_id <;>
      simp [runLoop, save_module_result, h, ih]

theorem runLoop_store_dir (env : Env) (event_id : String)
    (event_config : EventConfig) (force : Bool) (now : Nat)
    (names : List String) (st : StateStore) :
    (runLoop env event_id event_config force now names st).store.eventDirExists
      = st.eventDirExists := by
  induction names generalizing st with
  | nil => rfl
  | cons n rest ih =>
    cases h : st.eventDirExists event_id <;>
      simp [runLoop, save_module_result, h, ih]

theorem runLoop_store_states (env : Env) (event_id : String)
    (event_config : EventConfig) (force : Bool) (now : Nat)
    (names : List String) (st : StateStore) :
    (runLoop env event_id event_config force now names st).store.states
      = st.states := by
  induction names generalizing st with
  | nil => rfl
  | cons n rest ih =>
    cases h : st.eventDirExists event_id <;>
      simp [runLoop, save_module_result, h, ih]

theorem runLoop_invoked_force (env : Env) (event_id : String)
    (event_config : EventConfig) (now : Nat)
    (names : List String) (st : StateStore) :
    (runLoop env event_id event_config true now names st).invoked
      = names.filter (fun n => knownModule n) := by
  induction names generalizing st with
  | nil => rfl
  | cons n rest ih =>
    have hs : (run_module env st event_id n event_config true now).2
        = knownModule n := run_module_go_snd env event_id n event_config now
    cases h : st.eventDirExists event_id <;>
      cases hk : knownModule n <;>
        simp [runLoop, save_module_result, h, ih, List.filter, hs, hk]

theorem runLoop_not_mem (env : Env) (event_id : String)
    (event_config : EventConfig) (force : Bool) (now : Nat)
    (names : List String) (st : StateStore) (name : String) (hn : name ∉ names) :
    alookup (runLoop env event_id event_config force now names st).results name = none ∧
    get_module_result (runLoop env event_id event_config force now names st).store
      event_id name = get_module_result st event_id name ∧
    name ∉ (runLoop env event_id event_config force now names st).invoked := by
  induction names generalizing st with
  | nil => simp [runLoop, alookup]
  | cons n rest ih =>
    have hnn : n ≠ name := fun h => hn (h ▸ List.mem_cons_self n rest)
    have hrest : name ∉ rest := fun h => hn (List.mem_cons_of_mem n h)
    cases h : st.eventDirExists event_id
    · simp only [runLoop, save_module_result, h, Bool.false_eq_true, if_false]
      refine ⟨?_, ?_, ?_⟩
      · rw [alookup_cons_ne _ _ hnn]; exact (ih st hrest).1
      · exact (ih st hrest).2.1
      · intro hmem
        rcases List.mem_append.mp hmem with hmem | hmem
        · cases hif : (run_module env st event_id n event_config force now).2 <;>
            rw [hif] at hmem <;> simp at hmem
          exact hnn hmem.symm
        · exact (ih st hrest).2.2 hmem
    · simp only [runLoop, save_module_result, h, if_true]
      set st2 : StateStore :=
        { st with results := ((event_id, n),
            { (run_module env st event_id n event_config force now).1 with
                saved_at := some now }) :: st.results } with hst2
      refine ⟨?_, ?_, ?_⟩
      · rw [alookup_cons_ne _ _ hnn]; exact (ih st2 hrest).1
      · rw [(ih st2 hrest).2.1]
        show alookup _ (event_id, name) = _
        rw [hst2]
        exact alookup_cons_ne _ _ (by simp [hnn])
      · intro hmem
        rcases List.mem_append.mp hmem with hmem | hmem
        · cases hif : (run_module env st event_id n event_config force now).2 <;>
            rw [hif] at hmem <;> simp at hmem
          exact hnn hmem.symm
        · exact (ih st2 hrest).2.2 hmem

theorem runLoop_lookup_mem (env : Env) (event_id : String)
    (event_config : EventConfig) (force : Bool) (now : Nat)
    (names : List String) (st : StateStore) (name : String)
    (hdir : st.eventDirExists event_id = true)
    (hnd : names.Nodup) (hmem : name ∈ names) :
    alookup (runLoop env event_id event_config force now names st).results name
      = some { (run_module env st event_id name event_config force now).1 with
                 saved_at := some now } ∧
    get_module_result (runLoop env event_id event_config force now names st).store
      event_id name
      = some { (run_module env st event_id name event_config force now).1 with
                 saved_at := some now } ∧
    (name ∈ (runLoop env event_id event_config force now names st).invoked ↔
      (run_module env st event_id name event_config force now).2 = true) := by
  induction names generalizing st with
  | nil => cases hmem
  | cons n rest ih =>
    simp only [runLoop, save_module_result, hdir, if_true]
    rcases List.mem_cons.mp hmem with rfl | hmem'
    · have hnotin : name ∉ rest := (List.nodup_cons.mp hnd).1
      set r2 : StepResult :=
        { (run_module env st event_id name event_config force now).1 with
            saved_at := some now } with hr2
      set st2 : StateStore := { st with results := ((event_id, name), r2) :: st.results }
        with hst2
      obtain ⟨hres, hsto, hinv⟩ :=
        runLoop_not_mem env event_id event_config force now rest st2 name hnotin
      refine ⟨alookup_cons_self _ _ _, ?_, ?_⟩
      · rw [hsto]
        show alookup _ (event_id, name) = _
        rw [hst2]
        exact alookup_cons_self _ _ _
      · cases hif : (run_module env st event_id name event_config force now).2 <;>
          simp [hif, hinv]
    · have hnn : n ≠ name := fun h => (List.nodup_cons.mp hnd).1 (h ▸ hmem')
      set r2 : StepResult :=
        { (run_module env st event_id n event_config force now).1 with
            saved_at := some now } with hr2
      set st2 : StateStore := { st with results := ((event_id, n), r2) :: st.results }
        with hst2
      have hdir2 : st2.eventDirExists event_id = true := hdir
      have hget : get_module_result st2 event_id name
          = get_module_result st event_id name := by
        show alookup _ (event_id, name) = _
        rw [hst2]
        exact alookup_cons_ne _ _ (by simp [hnn])
      have hrm : run_module env st2 event_id name event_config force now
          = run_module env st event_id name event_config force now :=
        run_module_congr env event_id name event_config force now hget
      obtain ⟨ihres, ihsto, ihinv⟩ :=
        ih st2 hdir2 (List.nodup_cons.mp hnd).2 hmem'
      rw [hrm] at ihres ihsto ihinv
      refine ⟨?_, ihsto, ?_⟩
      · rw [alookup_cons_ne _ _ hnn]; exact ihres
      · rw [← ihinv]
        cases hif : (run_module env st event_id n event_config force now).2 <;>
          simp [hif, hnn, (Ne.symm hnn : name ≠ n)]

theorem runLoop_no_dir (env : Env) (event_id : String)
    (event_config : EventConfig) (force : Bool) (now : Nat)
    (names : List String) (st : StateStore)
    (h : st.eventDirExists event_id = false) :
    (runLoop env event_id event_config force now names st).store = st ∧
    (runLoop env event_id event_config force now names st).results
      = names.map fun n => (n,
          { status := "failed"
            error := some ("Event directory not found: " ++ event_id) }) := by
  induction names with
  | nil => exact ⟨rfl, rfl⟩
  | cons n rest ih =>
    simp only [runLoop, save_module_result, h, Bool.false_eq_true, if_false,
      List.map_cons]
    exact ⟨ih.1, by rw [ih.2]⟩

theorem run_event_eq_ok (env : Env) (repo : String → Option EventConfig)
    (st : StateStore) (event_id : String) (force : Bool) (now : Nat)
    (event_config : EventConfig)
    (hcfg : repo event_id = some event_config)
    (hdir : st.eventDirExists event_id = true) :
    run_event env repo st event_id force now =
      (let out := runLoop env event_id event_config force now
          (get_enabled_modules event_config) st
       ⟨.ok out.results,
        { out.store with states := (event_id,
            { event_id := event_id
              completed_at := now
              module_results := out.results
              overall_status := compute_overall_status out.results })
            :: out.store.states },
        out.invoked, out.processed⟩) := by
  have hd2 : (runLoop env event_id event_config force now
      (get_enabled_modules event_config) st).store.eventDirExists event_id = true := by
    rw [runLoop_store_dir]; exact hdir
  simp [run_event, hcfg, save_workflow_state, hd2]

theorem run_event_eq_no_dir (env : Env) (repo : String → Option EventConfig)
    (st : StateStore) (event_id : String) (force : Bool) (now : Nat)
    (event_config : EventConfig)
    (hcfg : repo event_id = some event_config)
    (hdir : st.eventDirExists event_id = false) :
    run_event env repo st event_id force now =
      (let out := runLoop env event_id event_config force now
          (get_enabled_modules event_config) st
       ⟨.error ("Event directory not found: " ++ event_id),
        out.store, out.invoked, out.processed⟩) := by
  have hd2 : (runLoop env event_id event_config force now
      (get_enabled_modules event_config) st).store.eventDirExists event_id = false := by
    rw [runLoop_store_dir]; exact hdir
  simp [run_event, hcfg, save_workflow_state, hd2]

theorem run_event_processed (env : Env) (repo : String → Option EventConfig)
    (st : StateStore) (event_id : String) (force : Bool) (now : Nat)
    (event_config : EventConfig) (hcfg : repo event_id = some event_config) :
    (run_event env repo st event_id force now).processed
      = get_enabled_modules event_config := by
  cases hdir : st.eventDirExists event_id
  · rw [run_event_eq_no_dir env repo st event_id force now event_config hcfg hdir]
    exact runLoop_processed env event_id event_config force now _ st
  · rw [run_event_eq_ok env repo st event_id force now event_config hcfg hdir]
    exact runLoop_processed env event_id event_config force now _ st

theorem run_event_invoked_force (env : Env) (repo : String → Option EventConfig)
    (st : StateStore) (event_id : String) (now : Nat)
    (event_config : EventConfig) (hcfg : repo event_id = some event_config) :
    (run_event env repo st event_id true now).invoked
      = (get_enabled_modules event_config).filter fun n => knownModule n := by
  cases hdir : st.eventDirExists event_id
  · rw [run_event_eq_no_dir env repo st event_id true now event_config hcfg hdir]
    exact runLoop_invoked_force env event_id event_config now _ st
  · rw [run_event_eq_ok env repo st event_id true now event_config hcfg hdir]
    exact runLoop_invoked_force env event_id event_config now _ st

theorem run_event_step_result (env : Env) (repo : String → Option EventConfig)
    (st : StateStore) (event_id : String) (force : Bool) (now : Nat)
    (event_config : EventConfig) (name : String)
    (hcfg : repo event_id = some event_config)
    (hdir : st.eventDirExists event_id = true)
    (hnd : (get_enabled_modules event_config).Nodup)
    (hmem : name ∈ get_enabled_modules event_config) :
    ∃ rs, (run_event env repo st event_id force now).value = .ok rs ∧
      rs.map Prod.fst = get_enabled_modules event_config ∧
      alookup rs name
        = some { (run_module env st event_id name event_config force now).1 with
                   saved_at := some now } ∧
      get_module_result (run_event env repo st event_id force now).store
        event_id name
        = some { (run_module env st event_id name event_config force now).1 with
                   saved_at := some now } ∧
      ((name ∈ (run_event env repo st event_id force now).invoked) ↔
        (run_module env st event_id name event_config force now).2 = true) := by
  obtain ⟨h1, h2, h3⟩ := runLoop_lookup_mem env event_id event_config force now
    (get_enabled_modules event_config) st name hdir hnd hmem
  rw [run_event_eq_ok env repo st event_id force now event_config hcfg hdir]
  exact ⟨_, rfl,
    runLoop_results_fst env event_id event_config force now _ st, h1, h2, h3⟩

/-! ### Claims -/

/-- C4: for every mapping of step results, `_compute_overall_status`
returns `failed` on the empty mapping; else `success` when every result
has status `success`; else `partial` when at least one does; else
`failed` — checked against the spec's exhaustive 3-step examples, and a
`skipped` result never counts toward `success`. -/
theorem c4_aggregate_status_rules :
    (∀ results : List (String × StepResult),
      compute_overall_status results =
        if results = [] then "failed"
        else if ∀ p ∈ results, p.2.status = "success" then "success"
        else if ∃ p ∈ results, p.2.status = "success" then "partial"
        else "failed") ∧
    compute_overall_status
      [("a", { status := "success" }), ("b", { status := "success" }),
       ("c", { status := "success" })] = "success" ∧
    compute_overall_status
      [("a", { status := "success" }), ("b", { status := "failed" }),
       ("c", { status := "success" })] = "partial" ∧
    compute_overall_status
      [("a", { status := "failed" }), ("b", { status := "failed" }),
       ("c", { status := "skipped" })] = "failed" ∧
    compute_overall_status [] = "failed" ∧
    compute_overall_status
      [("a", { status := "skipped" }), ("b", { status := "success" })]
      = "partial" := by
  refine ⟨?_, by decide, by decide, by decide, rfl, by decide⟩
  intro results
  by_cases he : results = []
  · subst he; rfl
  · have hne : results.isEmpty = false := by
      cases results with
      | nil => exact absurd rfl he
      | cons a t => rfl
    have hall : ((results.map fun r => r.2.status).all fun s => s == "success") = true
        ↔ ∀ p ∈ results, p.2.status = "success" := by
      rw [List.all_eq_true]
      constructor
      · intro h p hp
        have := h p.2.status (List.mem_map.mpr ⟨p, hp, rfl⟩)
        simpa using this
      · intro h s hs
        obtain ⟨p, hp, hps⟩ := List.mem_map.mp hs
        subst hps
        simpa using h p hp
    have hany : ((results.map fun r => r.2.status).any fun s => s == "success") = true
        ↔ ∃ p ∈ results, p.2.status = "success" := by
      rw [List.any_eq_true]
      constructor
      · intro h
        obtain ⟨s, hs, hseq⟩ := h
        obtain ⟨p, hp, hps⟩ := List.mem_map.mp hs
        subst hps
        exact ⟨p, hp, by simpa using hseq⟩
      · intro h
        obtain ⟨p, hp, hps⟩ := h
        exact ⟨p.2.status, List.mem_map.mpr ⟨p, hp, rfl⟩, by simpa using hps⟩
    unfold compute_overall_status
    rw [hne]
    simp only [Bool.false_eq_true, if_false]
    by_cases hA : ∀ p ∈ results, p.2.status = "success"
    · rw [hall.mpr hA, if_pos rfl, if_neg he, if_pos hA]
    · have hallf : ((results.map fun r => r.2.status).all fun s => s == "success")
          = false := by
        cases hx : (results.map fun r => r.2.status).all fun s => s == "success"
        · rfl
        · exact absurd (hall.mp hx) hA
      rw [hallf, if_neg he, if_neg hA]
      simp only [Bool.false_eq_true, if_false]
      by_cases hE : ∃ p ∈ results, p.2.status = "success"
      · rw [hany.mpr hE, if_pos rfl, if_pos hE]
      · have hanyf : ((results.map fun r => r.2.status).any fun s => s == "success")
            = false := by
          cases hx : (results.map fun r => r.2.status).any fun s => s == "success"
          · rfl
          · exact absurd (hany.mp hx) hE
        rw [hanyf, if_neg hE]
        simp only [Bool.false_eq_true, if_false]

/-- C7: for every event identifier for which the repository returns no
configuration, `run_event` raises `ValueError("Event not found: ...")`,
leaves the ledger untouched, and invokes no module runner. -/
theorem c7_missing_event (env : Env) (repo : String → Option EventConfig)
    (st : StateStore) (event_id : String) (force : Bool) (now : Nat)
    (habs : repo event_id = none) :
    (run_event env repo st event_id force now).value
        = .error ("Event not found: " ++ event_id) ∧
    (run_event env repo st event_id force now).store = st ∧
    (run_event env repo st event_id force now).invoked = [] := by
  simp [run_event, habs]

theorem c7_missing_event_witness :
    (fun _ : String => (none : Option EventConfig)) "does-not-exist" = none ∧
    ((run_event demoEnv (fun _ => none) demoStore "does-not-exist" false 0).value
        = .error ("Event not found: " ++ "does-not-exist") ∧
     (run_event demoEnv (fun _ => none) demoStore "does-not-exist" false 0).store
        = demoStore ∧
     (run_event demoEnv (fun _ => none) demoStore "does-not-exist" false 0).invoked
        = []) :=
  ⟨rfl, c7_missing_event demoEnv (fun _ => none) demoStore "does-not-exist" false 0 rfl⟩

/-- C8: with `force = true`, the runner of every enabled known module is
invoked (prior ledger contents notwithstanding), and every enabled
module — known or not — is processed. -/
theorem c8_force_override (env : Env) (repo : String → Option EventConfig)
    (st : StateStore) (event_id : String) (now : Nat)
    (event_config : EventConfig) (hcfg : repo event_id = some event_config) :
    (run_event env repo st event_id true now).invoked
      = (get_enabled_modules event_config).filter (fun n => knownModule n) ∧
    (run_event env repo st event_id true now).processed
      = get_enabled_modules event_config :=
  ⟨run_event_invoked_force env repo st event_id now event_config hcfg,
   run_event_processed env repo st event_id true now event_config hcfg⟩

theorem c8_force_override_witness :
    demoRepo "e" = some demoConfig ∧
    ((run_event demoEnv demoRepo demoStorePrior "e" true 0).invoked
        = (get_enabled_modules demoConfig).filter (fun n => knownModule n) ∧
     (run_event demoEnv demoRepo demoStorePrior "e" true 0).processed
        = get_enabled_modules demoConfig) :=
  ⟨rfl, c8_force_override demoEnv demoRepo demoStorePrior "e" 0 demoConfig rfl⟩

/-- C9: the modules processed by `run_event` are exactly those whose
enabled flag is true, in the configuration's declared order, and this
sequence is the same in any other run of the same configuration —
whatever the environment, store, force flag or clock. -/
theorem c9_order_determinism (env : Env) (repo : String → Option EventConfig)
    (st : StateStore) (event_id : String) (force : Bool) (now : Nat)
    (event_config : EventConfig) (hcfg : repo event_id = some event_config) :
    (run_event env repo st event_id force now).processed
      = (event_config.modules.filter fun p => p.2).map Prod.fst ∧
    ∀ (env2 : Env) (repo2 : String → Option EventConfig) (st2 : StateStore)
      (force2 : Bool) (now2 : Nat), repo2 event_id = some event_config →
      (run_event env2 repo2 st2 event_id force2 now2).processed
        = (run_event env repo st event_id force now).processed := by
  refine ⟨run_event_processed env repo st event_id force now event_config hcfg, ?_⟩
  intro env2 repo2 st2 force2 now2 hcfg2
  rw [run_event_processed env repo st event_id force now event_config hcfg,
    run_event_processed env2 repo2 st2 event_id force2 now2 event_config hcfg2]

/-- C1 (amended): with an already-`success` ledger entry and
`force = false`, the step's runner is not invoked, and the existing
result is reused as this run's result for the step — but it is then
re-saved, so the stored record is the old one with only its `saved_at`
field overwritten with the current time (byte-identical only when that
timestamp is unchanged). -/
theorem c1_idempotent_skip (env : Env) (repo : String → Option EventConfig)
    (st : StateStore) (event_id name : String) (r : StepResult) (now : Nat)
    (event_config : EventConfig)
    (hcfg : repo event_id = some event_config)
    (hdir : st.eventDirExists event_id = true)
    (hnd : (get_enabled_modules event_config).Nodup)
    (hmem : name ∈ get_enabled_modules event_config)
    (hr : get_module_result st event_id name = some r)
    (hs : r.status = "success") :
    name ∉ (run_event env repo st event_id false now).invoked ∧
    get_module_result (run_event env repo st event_id false now).store
      event_id name = some { r with saved_at := some now } ∧
    ∃ rs, (run_event env repo st event_id false now).value = .ok rs ∧
      alookup rs name = some { r with saved_at := some now } := by
  have hrm : run_module env st event_id name event_config false now = (r, false) :=
    run_module_skip env st event_id name event_config now hr hs
  obtain ⟨rs, hv, hfst, hlk, hsto, hinv⟩ := run_event_step_result env repo st
    event_id false now event_config name hcfg hdir hnd hmem
  rw [hrm] at hlk hsto hinv
  refine ⟨fun hmemI => ?_, hsto, rs, hv, hlk⟩
  simpa using hinv.mp hmemI

theorem c1_idempotent_skip_witness :
    demoRepo "e" = some demoConfig ∧
    demoStorePrior.eventDirExists "e" = true ∧
    (get_enabled_modules demoConfig).Nodup ∧
    "thumbnail_ai" ∈ get_enabled_modules demoConfig ∧
    get_module_result demoStorePrior "e" "thumbnail_ai" = some priorSuccess ∧
    priorSuccess.status = "success" ∧
    ("thumbnail_ai" ∉ (run_event demoEnv demoRepo demoStorePrior "e" false 5).invoked ∧
     get_module_result (run_event demoEnv demoRepo demoStorePrior "e" false 5).store
       "e" "thumbnail_ai" = some { priorSuccess with saved_at := some 5 } ∧
     ∃ rs, (run_event demoEnv demoRepo demoStorePrior "e" false 5).value = .ok rs ∧
       alookup rs "thumbnail_ai" = some { priorSuccess with saved_at := some 5 }) :=
  ⟨rfl, rfl, by decide, by decide, rfl, rfl,
   c1_idempotent_skip demoEnv demoRepo demoStorePrior "e" "thumbnail_ai"
     priorSuccess 5 demoConfig rfl rfl (by decide) (by decide) rfl rfl⟩

/-- C1 counterexample: re-running with `force = false` over a prior
`success` result does skip the runner, but does not leave the stored
record byte-identical: its `saved_at` field is rewritten with the
current time (5 instead of 0 here). -/
theorem c1_counterexample :
    "thumbnail_ai" ∉ (run_event demoEnv demoRepo demoStorePrior "e" false 5).invoked ∧
    get_module_result (run_event demoEnv demoRepo demoStorePrior "e" false 5).store
      "e" "thumbnail_ai" ≠ some priorSuccess := by
  decide

/-- C10: for every processed module — including one whose prior `success`
result was reused without invoking its runner — the run writes the
module's result to the ledger, and the write mutates the record it was
passed by setting `saved_at` to the current time before persisting; the
mutated record is also the one in this run's result mapping. -/
theorem c10_ledger_write (env : Env) (repo : String → Option EventConfig)
    (st : StateStore) (event_id : String) (force : Bool) (now : Nat)
    (event_config : EventConfig) (name : String)
    (hcfg : repo event_id = some event_config)
    (hdir : st.eventDirExists event_id = true)
    (hnd : (get_enabled_modules event_config).Nodup)
    (hmem : name ∈ get_enabled_modules event_config) :
    ∃ r, get_module_result (run_event env repo st event_id force now).store
        event_id name = some r ∧
      r.saved_at = some now ∧
      r = { (run_module env st event_id name event_config force now).1 with
              saved_at := some now } ∧
      ∃ rs, (run_event env repo st event_id force now).value = .ok rs ∧
        alookup rs name = some r := by
  obtain ⟨rs, hv, hfst, hlk, hsto, hinv⟩ := run_event_step_result env repo st
    event_id force now event_config name hcfg hdir hnd hmem
  exact ⟨_, hsto, rfl, rfl, rs, hv, hlk⟩

theorem c10_ledger_write_witness :
    demoRepo "e" = some demoConfig ∧
    demoStorePrior.eventDirExists "e" = true ∧
    (get_enabled_modules demoConfig).Nodup ∧
    "thumbnail_ai" ∈ get_enabled_modules demoConfig ∧
    (∃ r, get_module_result
        (run_event demoEnv demoRepo demoStorePrior "e" false 9).store
        "e" "thumbnail_ai" = some r ∧
      r.saved_at = some 9 ∧
      r = { (run_module demoEnv demoStorePrior "e" "thumbnail_ai" demoConfig
              false 9).1 with saved_at := some 9 } ∧
      ∃ rs, (run_event demoEnv demoRepo demoStorePrior "e" false 9).value
          = .ok rs ∧ alookup rs "thumbnail_ai" = some r) :=
  ⟨rfl, rfl, by decide, by decide,
   c10_ledger_write demoEnv demoRepo demoStorePrior "e" false 9 demoConfig
     "thumbnail_ai" rfl rfl (by decide) (by decide)⟩

/-- C5: a fault raised by the runner of an enabled known module (with no
prior `success` result shielding it) is caught and recorded as a
`failed` result carrying the fault's message as the error detail; the
remaining modules are still processed and their results recorded, and no
fault propagates — `run_event` still returns a result mapping. -/
theorem c5_failure_isolation (env : Env) (repo : String → Option EventConfig)
    (st : StateStore) (event_id : String) (force : Bool) (now : Nat)
    (event_config : EventConfig) (name m : String)
    (hcfg : repo event_id = some event_config)
    (hdir : st.eventDirExists event_id = true)
    (hnd : (get_enabled_modules event_config).Nodup)
    (hmem : name ∈ get_enabled_modules event_config)
    (hk : knownModule name = true)
    (hprior : get_module_result st event_id name = none)
    (hf : env.handle name event_id event_config now = .error m) :
    ∃ rs, (run_event env repo st event_id force now).value = .ok rs ∧
      alookup rs name = some { status := "failed"
                               error := some m
                               timestamp := some now
                               saved_at := some now } ∧
      rs.map Prod.fst = get_enabled_modules event_config ∧
      name ∈ (run_event env repo st event_id force now).invoked := by
  have hrm : run_module env st event_id name event_config force now
      = ({ status := "failed", error := some m, timestamp := some now }, true) := by
    rw [run_module_no_prior env st event_id name event_config force now hprior]
    simp [run_module_go, dispatch, hk, hf]
  obtain ⟨rs, hv, hfst, hlk, hsto, hinv⟩ := run_event_step_result env repo st
    event_id force now event_config name hcfg hdir hnd hmem
  rw [hrm] at hlk hinv
  exact ⟨rs, hv, hlk, hfst, hinv.mpr rfl⟩

theorem c5_failure_isolation_witness :
    demoRepo "e" = some demoConfig ∧
    demoStore.eventDirExists "e" = true ∧
    (get_enabled_modules demoConfig).Nodup ∧
    "thumbnail_ai" ∈ get_enabled_modules demoConfig ∧
    knownModule "thumbnail_ai" = true ∧
    get_module_result demoStore "e" "thumbnail_ai" = none ∧
    demoFaultEnv.handle "thumbnail_ai" "e" demoConfig 3
      = .error ("boom: " ++ "thumbnail_ai") ∧
    (∃ rs, (run_event demoFaultEnv demoRepo demoStore "e" false 3).value
        = .ok rs ∧
      alookup rs "thumbnail_ai" = some { status := "failed"
                                         error := some ("boom: " ++ "thumbnail_ai")
                                         timestamp := some 3
                                         saved_at := some 3 } ∧
      rs.map Prod.fst = get_enabled_modules demoConfig ∧
      "thumbnail_ai" ∈ (run_event demoFaultEnv demoRepo demoStore "e" false 3).invoked) :=
  ⟨rfl, rfl, by decide, by decide, rfl, rfl, rfl,
   c5_failure_isolation demoFaultEnv demoRepo demoStore "e" false 3 demoConfig
     "thumbnail_ai" ("boom: " ++ "thumbnail_ai") rfl rfl (by decide) (by decide)
     rfl rfl rfl⟩

/-- C6: an enabled module name outside the dispatch chain (with no prior
`success` result shielding it) is recorded as a `skipped` result whose
message names the unknown module; no runner is invoked for it, and the
run is not aborted — every enabled module still gets a result. -/
theorem c6_unknown_step (env : Env) (repo : String → Option EventConfig)
    (st : StateStore) (event_id : String) (force : Bool) (now : Nat)
    (event_config : EventConfig) (name : String)
    (hcfg : repo event_id = some event_config)
    (hdir : st.eventDirExists event_id = true)
    (hnd : (get_enabled_modules event_config).Nodup)
    (hmem : name ∈ get_enabled_modules event_config)
    (hk : knownModule name = false)
    (hprior : get_module_result st event_id name = none) :
    name ∉ (run_event env repo st event_id force now).invoked ∧
    ∃ rs, (run_event env repo st event_id force now).value = .ok rs ∧
      alookup rs name = some { status := "skipped"
                               message := some ("Unknown module: " ++ name)
                               timestamp := some now
                               saved_at := some now } ∧
      rs.map Prod.fst = get_enabled_modules event_config := by
  have hrm : run_module env st event_id name event_config force now
      = ({ status := "skipped"
           message := some ("Unknown module: " ++ name)
           timestamp := some now }, false) := by
    rw [run_module_no_prior env st event_id name event_config force now hprior]
    simp [run_module_go, dispatch, hk]
  obtain ⟨rs, hv, hfst, hlk, hsto, hinv⟩ := run_event_step_result env repo st
    event_id force now event_config name hcfg hdir hnd hmem
  rw [hrm] at hlk hinv
  refine ⟨fun hmemI => ?_, rs, hv, hlk, hfst⟩
  simpa using hinv.mp hmemI

theorem c6_unknown_step_witness :
    demoRepo "e" = some demoConfig ∧
    demoStore.eventDirExists "e" = true ∧
    (get_enabled_modules demoConfig).Nodup ∧
    "mystery" ∈ get_enabled_modules demoConfig ∧
    knownModule "mystery" = false ∧
    get_module_result demoStore "e" "mystery" = none ∧
    ("mystery" ∉ (run_event demoEnv demoRepo demoStore "e" false 2).invoked ∧
     ∃ rs, (run_event demoEnv demoRepo demoStore "e" false 2).value = .ok rs ∧
       alookup rs "mystery" = some { status := "skipped"
                                     message := some ("Unknown module: " ++ "mystery")
                                     timestamp := some 2
                                     saved_at := some 2 } ∧
       rs.map Prod.fst = get_enabled_modules demoConfig) :=
  ⟨rfl, rfl, by decide, by decide, rfl, rfl,
   c6_unknown_step demoEnv demoRepo demoStore "e" false 2 demoConfig "mystery"
     rfl rfl (by decide) (by decide) rfl rfl⟩

theorem c9_order_determinism_witness :
    demoRepo "e" = some demoConfig ∧
    ((run_event demoEnv demoRepo demoStore "e" false 0).processed
        = (demoConfig.modules.filter fun p => p.2).map Prod.fst ∧
     (run_event demoFaultEnv demoRepo demoStorePrior "e" true 7).processed
        = (run_event demoEnv demoRepo demoStore "e" false 0).processed) := by
  obtain ⟨h1, h2⟩ :=
    c9_order_determinism demoEnv demoRepo demoStore "e" false 0 demoConfig rfl
  exact ⟨rfl, h1, h2 demoFaultEnv demoRepo demoStorePrior true 7 rfl⟩

/-- C2 (amended): a ledger failure while saving one step's result is
caught by the per-module `except` clause: the step's in-run result is
replaced by a `failed` record carrying the persistence message, the
remaining modules are still processed (their runners still invoked), and
nothing is durably written; the persistence error that does propagate
out of `run_event` is the one raised by the final run-record write.  The
only exception messages that ever escape `run_event` are
`Event not found: ...` and `Event directory not found: ...`. -/
theorem c2_persistence_not_fatal_per_step (env : Env)
    (repo : String → Option EventConfig) (st : StateStore)
    (event_id : String) (force : Bool) (now : Nat) :
    (∀ e, (run_event env repo st event_id force now).value = .error e →
        e = "Event not found: " ++ event_id ∨
        e = "Event directory not found: " ++ event_id) ∧
    (∀ event_config, repo event_id = some event_config →
      st.eventDirExists event_id = false →
      (run_event env repo st event_id true now).value
          = .error ("Event directory not found: " ++ event_id) ∧
      (run_event env repo st event_id true now).store = st ∧
      (run_event env repo st event_id true now).processed
          = get_enabled_modules event_config ∧
      (run_event env repo st event_id true now).invoked
          = (get_enabled_modules event_config).filter fun n => knownModule n) := by
  constructor
  · intro e he
    unfold run_event at he
    cases hrepo : repo event_id with
    | none =>
      rw [hrepo] at he
      simp only at he
      cases he
      exact Or.inl rfl
    | some event_config =>
      rw [hrepo] at he
      simp only at he
      cases hsv : save_workflow_state
          (runLoop env event_id event_config force now
            (get_enabled_modules event_config) st).store event_id
          (runLoop env event_id event_config force now
            (get_enabled_modules event_config) st).results now with
      | ok st2 => rw [hsv] at he; cases he
      | error e2 =>
        rw [hsv] at he
        cases he
        refine Or.inr ?_
        unfold save_workflow_state at hsv
        by_cases hd : (runLoop env event_id event_config force now
            (get_enabled_modules event_config) st).store.eventDirExists event_id
          = true
        · rw [if_pos hd] at hsv; cases hsv
        · rw [if_neg hd] at hsv
          cases hsv
          rfl
  · intro event_config hcfg hdir
    rw [run_event_eq_no_dir env repo st event_id true now event_config hcfg hdir]
    obtain ⟨hsto, _⟩ := runLoop_no_dir env event_id event_config true now
      (get_enabled_modules event_config) st hdir
    exact ⟨rfl, hsto,
      runLoop_processed env event_id event_config true now _ st,
      runLoop_invoked_force env event_id event_config now _ st⟩

theorem c2_persistence_witness :
    demoRepo "e" = some demoConfig ∧
    demoStoreNoDir.eventDirExists "e" = false ∧
    ((run_event demoEnv demoRepo demoStoreNoDir "e" true 0).value
        = .error ("Event directory not found: " ++ "e") ∧
     (run_event demoEnv demoRepo demoStoreNoDir "e" true 0).store
        = demoStoreNoDir ∧
     (run_event demoEnv demoRepo demoStoreNoDir "e" true 0).processed
        = get_enabled_modules demoConfig ∧
     (run_event demoEnv demoRepo demoStoreNoDir "e" true 0).invoked
        = (get_enabled_modules demoConfig).filter fun n => knownModule n) :=
  ⟨rfl, rfl,
   (c2_persistence_not_fatal_per_step demoEnv demoRepo demoStoreNoDir "e"
      true 0).2 demoConfig rfl rfl⟩

/-- C2 counterexample: the ledger write for the first enabled module
(`thumbnail_ai`) fails, yet the run is not aborted — the runner of the
later enabled module (`archive`) is still invoked; per-step persistence
failure is absorbed into the run rather than propagated at that point. -/
theorem c2_counterexample :
    save_module_result demoStoreNoDir "e" "thumbnail_ai"
      { status := "success", message := some "ok", timestamp := some 0 } 0
      = .error ("Event directory not found: " ++ "e") ∧
    (run_event demoEnv demoRepo demoStoreNoDir "e" true 0).invoked
      = ["thumbnail_ai", "archive"] ∧
    (run_event demoEnv demoRepo demoStoreNoDir "e" true 0).store.results = [] := by
  refine ⟨rfl, ?_, rfl⟩
  decide

/-- C3 (amended): for every event present in the repository (with its
storage directory in place), `run_event` persists the full run record —
event identifier, completion timestamp, result mapping and aggregate
status — to the ledger, but returns only the mapping of module name to
result. -/
theorem c3_returns_results_persists_record (env : Env)
    (repo : String → Option EventConfig) (st : StateStore)
    (event_id : String) (force : Bool) (now : Nat)
    (event_config : EventConfig)
    (hcfg : repo event_id = some event_config)
    (hdir : st.eventDirExists event_id = true) :
    ∃ rs, (run_event env repo st event_id force now).value = .ok rs ∧
      rs.map Prod.fst = get_enabled_modules event_config ∧
      get_workflow_state (run_event env repo st event_id force now).store event_id
        = some { event_id := event_id
                 completed_at := now
                 module_results := rs
                 overall_status := compute_overall_status rs } := by
  rw [run_event_eq_ok env repo st event_id force now event_config hcfg hdir]
  refine ⟨_, rfl, runLoop_results_fst env event_id event_config force now _ st, ?_⟩
  exact alookup_cons_self _ _ _

theorem c3_returns_results_witness :
    demoRepo "e" = some demoConfig ∧
    demoStore.eventDirExists "e" = true ∧
    (∃ rs, (run_event demoEnv demoRepo demoStore "e" false 4).value = .ok rs ∧
      rs.map Prod.fst = get_enabled_modules demoConfig ∧
      get_workflow_state (run_event demoEnv demoRepo demoStore "e" false 4).store "e"
        = some { event_id := "e"
                 completed_at := 4
                 module_results := rs
                 overall_status := compute_overall_status rs }) :=
  ⟨rfl, rfl,
   c3_returns_results_persists_record demoEnv demoRepo demoStore "e" false 4
     demoConfig rfl rfl⟩

/-- C3 counterexample: two runs of the same configuration for different
event identifiers return equal values, while the persisted run records
differ (in their event identifier) — so the value `run_event` returns is
not the run record: it lacks the event identifier, completion timestamp
and aggregate status. -/
theorem c3_counterexample :
    (run_event demoEnv demoRepo demoStore "e1" false 0).value
      = (run_event demoEnv demoRepo demoStore "e2" false 0).value ∧
    get_workflow_state (run_event demoEnv demoRepo demoStore "e1" false 0).store "e1"
      ≠ get_workflow_state (run_event demoEnv demoRepo demoStore "e2" false 0).store "e2" := by
  refine ⟨rfl, ?_⟩
  decide

end CMAS
